import Mathlib

/-!
Shallow embedding of the image-overlay application's export pipeline
(src/src/App.tsx): orientation selection (pickOrientation), pixel rotation
(drawRotated), containment/inset layout, page assembly (downloadPDF), the
crop finalization (applyCrop) and the TIFF upload handler (handleImageUpload).

JavaScript numbers are embedded as exact rationals (the numeric literals
2.6, 0.04, 0.10, 0.9 become the corresponding rationals); JS strings are
Lean strings, and JS String.prototype.startsWith is modelled over the
character list.  Browser image decoding (new Image() + onload/onerror) is an
oracle `Decoder` mapping a source URL to its natural dimensions, `none`
meaning the decode fails (onerror).  jsPDF A4 page sizes in mm are modelled
as 210x297; no claim depends on the exact physical size.
-/

namespace ImageOverlay

/-- JS `s.startsWith(pre)` over the character sequence. -/
def jsStartsWith (s pre : String) : Bool := pre.data.isPrefixOf s.data

/-- App.tsx line 25: `const JPEG_QUALITY = 0.9`. -/
def JPEG_QUALITY : ℚ := 9/10

/-- App.tsx line 28: `const PANORAMA_AR = 2.6`. -/
def PANORAMA_AR : ℚ := 26/10

/-- App.tsx line 29: `const PANORAMA_INSET = 0.04`. -/
def PANORAMA_INSET : ℚ := 4/100

/-- App.tsx line 30: `const NORMAL_INSET = 0.10`. -/
def NORMAL_INSET : ℚ := 10/100

inductive Orientation
  | portrait
  | landscape
deriving DecidableEq, Repr

inductive OrientPref
  | auto
  | portrait
  | landscape
deriving DecidableEq, Repr

/-- A decoded raster: the `naturalWidth`/`naturalHeight` the browser reports. -/
structure Img where
  naturalWidth : ℚ
  naturalHeight : ℚ
deriving DecidableEq, Repr

/-- Browser decode oracle: `none` models the `onerror` path of `new Image()`. -/
def Decoder : Type := String → Option Img

/-- The `Entry` record from App.tsx lines 7-17.  Optional fields are `Option`;
the code reads them with `??` defaults. -/
structure Entry where
  title : Option String
  size : Option String
  image : Option String
  orientation : Option OrientPref
  scale : Option ℚ
  offsetX : Option ℚ
  offsetY : Option ℚ
  rotation : Option ℕ
deriving DecidableEq, Repr

/-- JS truthiness of a nullable string: `null` and `""` are falsy. -/
def strTruthy : Option String → Bool
  | none => false
  | some s => !(s == "")

inductive PdfError
  | decode
deriving DecidableEq, Repr

/-- `pickOrientation` (App.tsx lines 538-549): explicit orientation wins,
no image defaults to portrait, otherwise the aspect-ratio heuristic. -/
def pickOrientation (dec : Decoder) (e : Entry) : Except PdfError Orientation :=
  match e.orientation with
  | some OrientPref.portrait => Except.ok Orientation.portrait
  | some OrientPref.landscape => Except.ok Orientation.landscape
  | _ =>
    match e.image with
    | none => Except.ok Orientation.portrait
    | some src =>
      match dec src with
      | none => Except.error PdfError.decode
      | some raw =>
        let ar := raw.naturalWidth / raw.naturalHeight
        Except.ok (if ar ≥ PANORAMA_AR then Orientation.landscape else Orientation.portrait)

/-- App.tsx line 195: `const norm = (d) => ((d % 360) + 360) % 360`. -/
def normDeg (d : ℕ) : ℕ := ((d % 360) + 360) % 360

/-- App.tsx line 196: `const swap = (r) => r === 90 || r === 270`. -/
def swapDims (r : ℕ) : Bool := r == 90 || r == 270

/-- The rotation chosen by drawRotated (App.tsx lines 199-203): start from the
user rotation, and add 90 degrees when the effective shape works against the
page orientation. -/
def chooseRot (userRot : ℕ) (pageOrientation : Orientation) (baseAR : ℚ) : ℕ :=
  let effAR := if swapDims userRot then 1 / baseAR else baseAR
  if pageOrientation = Orientation.landscape ∧ effAR < 1 then normDeg (userRot + 90)
  else if pageOrientation = Orientation.portrait ∧ effAR > 1 then normDeg (userRot + 90)
  else userRot

/-- Output encoding of a canvas re-encode: `toDataURL("image/png")` or
`toDataURL("image/jpeg", q)`. -/
inductive OutFormat
  | png
  | jpeg (q : ℚ)
deriving DecidableEq, Repr

/-- Result record of drawRotated: output format, buffer dimensions, ratio. -/
structure RotOut where
  format : OutFormat
  w : ℚ
  h : ℚ
  ar : ℚ
deriving DecidableEq, Repr

/-- `drawRotated` (App.tsx lines 179-222): decode, choose the corrected
rotation, swap the output buffer on 90/270, pick the output encoding by
inspecting the source URL prefix. -/
def drawRotated (dec : Decoder) (src : String) (userRot : ℕ)
    (pageOrientation : Orientation) (jpegQuality : ℚ) : Except PdfError RotOut :=
  match dec src with
  | none => Except.error PdfError.decode
  | some img =>
    let baseW := img.naturalWidth
    let baseH := img.naturalHeight
    let baseAR := baseW / baseH
    let rot := chooseRot userRot pageOrientation baseAR
    let outW := if swapDims rot then baseH else baseW
    let outH := if swapDims rot then baseW else baseH
    let format := if jsStartsWith src ("data:image/png") then OutFormat.png
                  else OutFormat.jpeg jpegQuality
    Except.ok (RotOut.mk format outW outH (outW / outH))

structure Rect where
  x : ℚ
  y : ℚ
  w : ℚ
  h : ℚ
deriving DecidableEq, Repr

/-- App.tsx line 621: `imgAR >= PAN_AR ? PANORAMA_INSET : NORMAL_INSET`. -/
def insetFor (imgAR : ℚ) : ℚ :=
  if imgAR ≥ PANORAMA_AR then PANORAMA_INSET else NORMAL_INSET

/-- App.tsx lines 621-625: the inset usable box inside the content rect. -/
def usableBox (left top rawW rawH imgAR : ℚ) : Rect :=
  Rect.mk (left + rawW * insetFor imgAR) (top + rawH * insetFor imgAR)
    (rawW * (1 - insetFor imgAR * 2)) (rawH * (1 - insetFor imgAR * 2))

/-- App.tsx lines 627-633: contain-fit of the rotated image in the box. -/
def containFit (boxW boxH imgAR : ℚ) : ℚ × ℚ :=
  let drawW := boxW
  let drawH := drawW / imgAR
  if drawH > boxH then (boxH * imgAR, boxH) else (drawW, drawH)

/-- App.tsx line 635: `Math.min(100, Math.max(50, entry.scale ?? 100))`. -/
def clampScale (s : ℚ) : ℚ := min 100 (max 50 s)

/-- The placed rectangle computed by the export for one entry
(App.tsx lines 621-645): inset box, contain-fit, clamped scale, raw offsets. -/
def layoutRect (left top rawW rawH imgAR scaleRaw offXRaw offYRaw : ℚ) : Rect :=
  let box := usableBox left top rawW rawH imgAR
  let fit := containFit box.w box.h imgAR
  let scale := clampScale scaleRaw / 100
  let drawW := fit.1 * scale
  let drawH := fit.2 * scale
  let slackX := box.w - drawW
  let slackY := box.h - drawH
  let offX := offXRaw / 100 * (slackX / 2)
  let offY := offYRaw / 100 * (slackY / 2)
  Rect.mk (box.x + (box.w - drawW) / 2 + offX) (box.y + (box.h - drawH) / 2 + offY)
    drawW drawH

/-- A raster placed on a page, with the encoding handed to `pdf.addImage`. -/
structure PlacedImage where
  x : ℚ
  y : ℚ
  w : ℚ
  h : ℚ
  format : OutFormat
deriving DecidableEq, Repr

/-- One page of the produced document. -/
structure Page where
  orientation : Orientation
  placed : Option PlacedImage
deriving DecidableEq, Repr

/-- jsPDF A4 width in mm for the given orientation. -/
def pageWmm (o : Orientation) : ℚ := if o = Orientation.landscape then 297 else 210

/-- jsPDF A4 height in mm for the given orientation. -/
def pageHmm (o : Orientation) : ℚ := if o = Orientation.landscape then 210 else 297

/-- Per-entry page body (App.tsx lines 567-648): header cursor, content box,
rotation, layout; fails exactly when `drawRotated` cannot decode the image. -/
def processEntry (dec : Decoder) (jobNumber : String) (e : Entry) (ori : Orientation)
    (src : String) : Except PdfError PlacedImage :=
  let M : ℚ := 8
  let pageW := pageWmm ori
  let pageH := pageHmm ori
  let yPos0 := M + 6
  let yPos1 := if jobNumber == "" then yPos0 else yPos0 + 12
  let yPos2 := if strTruthy e.title then yPos1 + 10 else yPos1
  let yPos3 := if strTruthy e.size then yPos2 + 10 else yPos2
  let top := yPos3 + 6
  let left := M
  let rawW := pageW - M * 2
  let rawH := pageH - top - M
  match drawRotated dec src (e.rotation.getD 0) ori JPEG_QUALITY with
  | Except.error er => Except.error er
  | Except.ok rotated =>
    let r := layoutRect left top rawW rawH rotated.ar (e.scale.getD 100)
      (e.offsetX.getD 0) (e.offsetY.getD 0)
    Except.ok (PlacedImage.mk r.x r.y r.w r.h rotated.format)

/-- The orientation pre-pass (App.tsx lines 552-555): resolve every entry's
orientation, in order, propagating a decode failure. -/
def pickOrientations (dec : Decoder) : List Entry → Except PdfError (List Orientation)
  | [] => Except.ok []
  | e :: rest =>
    match pickOrientation dec e with
    | Except.error er => Except.error er
    | Except.ok o =>
      match pickOrientations dec rest with
      | Except.error er => Except.error er
      | Except.ok os => Except.ok (o :: os)

/-- Drawing happens on the document's current (last) page. -/
def setLastPlaced (pages : List Page) (p : PlacedImage) : List Page :=
  match pages with
  | [] => []
  | [pg] => [Page.mk pg.orientation (some p)]
  | pg :: rest => pg :: setLastPlaced rest p

/-- The per-entry loop of downloadPDF (App.tsx lines 561-649): skip imageless
entries; `pdf.addPage` for kept entries with index > 0; draw on the last page. -/
def buildPages (dec : Decoder) (jobNumber : String) :
    List (Entry × Orientation) → ℕ → List Page → Except PdfError (List Page)
  | [], _, pages => Except.ok pages
  | (e, ori) :: rest, i, pages =>
    match e.image with
    | none => buildPages dec jobNumber rest (i + 1) pages
    | some src =>
      let pages1 := if i > 0 then pages ++ [Page.mk ori none] else pages
      match processEntry dec jobNumber e ori src with
      | Except.error er => Except.error er
      | Except.ok placed => buildPages dec jobNumber rest (i + 1) (setLastPlaced pages1 placed)

/-- The produced document: its pages and the download filename. -/
structure SavedDoc where
  pages : List Page
  filename : String
deriving DecidableEq, Repr

/-- Observable outcome of one export call. -/
structure ExportResult where
  saved : Option SavedDoc
  alerted : Bool
  isGenerating : Bool
deriving DecidableEq, Repr

/-- The body of downloadPDF's `try` block (App.tsx lines 533-651): orientation
pre-pass, document creation with the first orientation (jsPDF's constructor
already creates page 1), page loop, save. -/
def exportRun (dec : Decoder) (jobNumber : String) (entries : List Entry) :
    Except PdfError SavedDoc :=
  match pickOrientations dec entries with
  | Except.error er => Except.error er
  | Except.ok orientations =>
    let firstOri := orientations.headD Orientation.portrait
    match buildPages dec jobNumber (entries.zip orientations) 0 [Page.mk firstOri none] with
    | Except.error er => Except.error er
    | Except.ok pages =>
      Except.ok (SavedDoc.mk pages ((if jobNumber == "" then "output" else jobNumber) ++ ".pdf"))

/-- `downloadPDF` (App.tsx lines 531-658) with its try/catch/finally: a failure
alerts and saves nothing; `setIsGenerating(false)` runs on every path. -/
def downloadPDF (dec : Decoder) (jobNumber : String) (entries : List Entry) : ExportResult :=
  match exportRun dec jobNumber entries with
  | Except.ok doc => ExportResult.mk (some doc) false false
  | Except.error _ => ExportResult.mk none true false

/-- `applyCrop` (App.tsx lines 126-148) finalizes the entry image as
`croppedCanvas.toDataURL("image/jpeg", JPEG_QUALITY)`: a JPEG data URL. -/
def cropDataUrl (payload : String) : String := "data:image/jpeg;base64," ++ payload

/-- The conversion endpoint's response as seen by handleImageUpload. -/
inductive ConvResponse
  | netFail
  | httpError (status : ℕ) (text : String)
  | okJson (base64 : Option String)
deriving DecidableEq, Repr

/-- Observable outcome of the TIFF branch of handleImageUpload. -/
structure UploadOutcome where
  originalImageSet : Option String
  cropIndexSet : Bool
  alertMsg : Option String
  isUploading : Bool
  uploadingIndex : Option ℕ
deriving DecidableEq, Repr

/-- The TIFF branch of `handleImageUpload` (App.tsx lines 84-116): a non-OK
response throws, the catch alerts, the finally clears the spinner state. -/
def handleTiffUpload (resp : ConvResponse) : UploadOutcome :=
  match resp with
  | ConvResponse.netFail =>
    UploadOutcome.mk none false (some ("Error uploading TIFF image.")) false none
  | ConvResponse.httpError _ _ =>
    UploadOutcome.mk none false (some ("Error uploading TIFF image.")) false none
  | ConvResponse.okJson (some b64) =>
    if b64 == "" then
      UploadOutcome.mk none false (some ("TIFF conversion failed.")) false none
    else
      UploadOutcome.mk (some ("data:image/png;base64," ++ b64)) true none false none
  | ConvResponse.okJson none =>
    UploadOutcome.mk none false (some ("TIFF conversion failed.")) false none

/-- Test decoder for concrete runs: "a.jpg" decodes to a 100x100 raster,
every other source fails to decode. -/
def decStub : Decoder := fun s => if s == "a.jpg" then some (Img.mk 100 100) else none

/-- A fresh entry as created by addEntry (App.tsx lines 150-165): empty texts,
no image, auto orientation, scale 100, offsets 0, rotation 0. -/
def entryBlank : Entry :=
  Entry.mk (some ("")) (some ("")) none (some OrientPref.auto) (some 100) (some 0)
    (some 0) (some 0)

/-- The same fresh entry after an image was cropped into it. -/
def entryPhoto : Entry :=
  Entry.mk (some ("")) (some ("")) (some ("a.jpg")) (some OrientPref.auto) (some 100)
    (some 0) (some 0) (some 0)

/-! ## Theorems -/

/-- C6: the layout's inset fraction is 0.04 per side when the rotated aspect
ratio is at least 2.6 and 0.10 per side otherwise, and the usable box shrinks
the content rectangle symmetrically: width `rawW*(1-2*inset)`, height
`rawH*(1-2*inset)`, origin offset by `rawW*inset` and `rawH*inset` from the
content rectangle's top-left corner. -/
theorem C6_inset_box (imgAR rawW rawH left top : ℚ) :
    insetFor imgAR = (if imgAR ≥ 26/10 then 4/100 else 10/100) ∧
    usableBox left top rawW rawH imgAR =
      Rect.mk (left + rawW * insetFor imgAR) (top + rawH * insetFor imgAR)
        (rawW * (1 - 2 * insetFor imgAR)) (rawH * (1 - 2 * insetFor imgAR)) := by
  refine ⟨rfl, ?_⟩
  simp only [usableBox, Rect.mk.injEq]
  exact ⟨by trivial, by trivial, by ring, by ring⟩

/-- C8: when the conversion endpoint answers with a non-OK HTTP status, the
TIFF upload handler raises and reports the error, leaves `originalImage`
unset, does not open the crop dialog, and on every path (success or failure)
clears the upload spinner state. -/
theorem C8_upload_http_error :
    (∀ status text, handleTiffUpload (ConvResponse.httpError status text) =
      UploadOutcome.mk none false (some ("Error uploading TIFF image.")) false none) ∧
    (∀ resp, (handleTiffUpload resp).isUploading = false ∧
      (handleTiffUpload resp).uploadingIndex = none) := by
  refine ⟨fun status text => rfl, fun resp => ?_⟩
  cases resp with
  | netFail => exact ⟨rfl, rfl⟩
  | httpError status text => exact ⟨rfl, rfl⟩
  | okJson b64 =>
    cases b64 with
    | none => exact ⟨rfl, rfl⟩
    | some s =>
      simp only [handleTiffUpload]
      split <;> exact ⟨by trivial, by trivial⟩

/-- C9: drawRotated picks its output encoding purely from the source URL's
prefix — PNG data URLs stay PNG, everything else is re-encoded as JPEG at the
fixed quality 0.9 — independently of the rotation and page orientation. -/
theorem C9_output_format (dec : Decoder) (src : String) (userRot : ℕ)
    (ori : Orientation) (r : RotOut)
    (h : drawRotated dec src userRot ori JPEG_QUALITY = Except.ok r) :
    r.format = if jsStartsWith src ("data:image/png") then OutFormat.png
               else OutFormat.jpeg JPEG_QUALITY := by
  cases hdec : dec src with
  | none => simp [drawRotated, hdec] at h
  | some img =>
    simp only [drawRotated, hdec, Except.ok.injEq] at h
    rw [← h]

/-- Witness for C9 at a concrete decoder, source and rotation. -/
theorem C9_witness :
    drawRotated (fun _ => some (Img.mk 2 1)) ("x.jpg") 0 Orientation.landscape JPEG_QUALITY =
      Except.ok (RotOut.mk (OutFormat.jpeg JPEG_QUALITY) 2 1 (2/1)) ∧
    (RotOut.mk (OutFormat.jpeg JPEG_QUALITY) 2 1 (2/1)).format =
      (if jsStartsWith ("x.jpg") ("data:image/png") then OutFormat.png
       else OutFormat.jpeg JPEG_QUALITY) := by
  have hpng : jsStartsWith ("x.jpg") ("data:image/png") = false := by decide
  have hno := eq_false (by decide : ¬ Orientation.landscape = Orientation.portrait)
  have h : drawRotated (fun _ => some (Img.mk 2 1)) ("x.jpg") 0 Orientation.landscape
      JPEG_QUALITY = Except.ok (RotOut.mk (OutFormat.jpeg JPEG_QUALITY) 2 1 (2/1)) := by
    norm_num [drawRotated, chooseRot, swapDims, normDeg, hpng, hno]
  exact ⟨h, C9_output_format (fun _ => some (Img.mk 2 1)) ("x.jpg") 0 Orientation.landscape
    (RotOut.mk (OutFormat.jpeg JPEG_QUALITY) 2 1 (2/1)) h⟩

/-- C2 fails on the code: only `scale` is clamped before use; `offsetX` and
`offsetY` are divided by 100 raw.  At scale 50 on a 100x100 content box with
unit aspect ratio, a raw `offsetX = 200` (clamp would give 100) shifts the
rectangle beyond what the clamped value yields, and likewise for `offsetY`. -/
theorem C2_counterexample :
    layoutRect 0 0 100 100 1 50 200 0 ≠ layoutRect 0 0 100 100 1 50 100 0 ∧
    layoutRect 0 0 100 100 1 50 0 200 ≠ layoutRect 0 0 100 100 1 50 0 100 := by
  constructor <;>
    norm_num [layoutRect, usableBox, containFit, clampScale, insetFor,
      PANORAMA_AR, PANORAMA_INSET, NORMAL_INSET, Rect.mk.injEq]

/-- C2 (amended): of the three parameters only `scale` is clamped to its
domain [50,100] before the layout computation uses it — the placed rectangle
is invariant under replacing a raw scale by its clamped value — while
`offsetX` and `offsetY` are used raw. -/
theorem C2_scale_clamped (left top rawW rawH imgAR s ox oy : ℚ) :
    layoutRect left top rawW rawH imgAR s ox oy =
      layoutRect left top rawW rawH imgAR (clampScale s) ox oy := by
  have h : clampScale (clampScale s) = clampScale s := by
    unfold clampScale
    rcases le_total s 50 with h1 | h1
    · rw [max_eq_left h1]
      rw [min_eq_right (by norm_num : (50:ℚ) ≤ 100)]
      rw [max_eq_left le_rfl, min_eq_right (by norm_num : (50:ℚ) ≤ 100)]
    · rcases le_total s 100 with h2 | h2
      · rw [max_eq_right h1, min_eq_right h2, max_eq_right h1, min_eq_right h2]
      · rw [max_eq_right h1, min_eq_left h2]
        rw [max_eq_right (by norm_num : (50:ℚ) ≤ 100), min_eq_left le_rfl]
  simp only [layoutRect, h]

/-- C5: the Orientation Selector returns an explicit "portrait"/"landscape"
preference verbatim; otherwise ("auto" or unset) it returns "portrait" when
the entry has no image, and with an image of aspect ratio `r` it returns
"landscape" iff `r >= 2.6`; whenever the image (if any) decodes it returns a
value. -/
theorem C5_pickOrientation (dec : Decoder) (e : Entry) (src : String) (raw : Img) :
    (e.orientation = some OrientPref.portrait →
      pickOrientation dec e = Except.ok Orientation.portrait) ∧
    (e.orientation = some OrientPref.landscape →
      pickOrientation dec e = Except.ok Orientation.landscape) ∧
    ((e.orientation = none ∨ e.orientation = some OrientPref.auto) → e.image = none →
      pickOrientation dec e = Except.ok Orientation.portrait) ∧
    ((e.orientation = none ∨ e.orientation = some OrientPref.auto) →
      e.image = some src → dec src = some raw →
      pickOrientation dec e = Except.ok
        (if raw.naturalWidth / raw.naturalHeight ≥ 26/10 then Orientation.landscape
         else Orientation.portrait)) ∧
    ((e.image = none ∨ ∃ s i, e.image = some s ∧ dec s = some i) →
      ∃ o, pickOrientation dec e = Except.ok o) := by
  refine ⟨?_, ?_, ?_, ?_, ?_⟩
  · intro h; simp [pickOrientation, h]
  · intro h; simp [pickOrientation, h]
  · rintro (h | h) himg <;> simp [pickOrientation, h, himg]
  · rintro (h | h) himg hdec <;>
      simp [pickOrientation, h, himg, hdec, PANORAMA_AR]
  · rintro (himg | ⟨s, i, himg, hdec⟩)
    · rcases ho : e.orientation with _ | pref
      · simp only [pickOrientation, ho, himg]
        exact ⟨_, rfl⟩
      · rcases pref <;> simp only [pickOrientation, ho, himg] <;> exact ⟨_, rfl⟩
    · rcases ho : e.orientation with _ | pref
      · simp only [pickOrientation, ho, himg, hdec]
        exact ⟨_, rfl⟩
      · rcases pref <;> simp only [pickOrientation, ho, himg, hdec] <;> exact ⟨_, rfl⟩

/-- Witness for C5 at a concrete auto entry whose image decodes to ratio 2.6. -/
theorem C5_witness :
    pickOrientation (fun _ => some (Img.mk 26 10))
        (Entry.mk none none (some ("i.jpg")) (some OrientPref.auto) none none none none) =
      Except.ok (if (Img.mk (26:ℚ) 10).naturalWidth / (Img.mk (26:ℚ) 10).naturalHeight ≥ 26/10
        then Orientation.landscape else Orientation.portrait) :=
  (C5_pickOrientation (fun _ => some (Img.mk 26 10))
    (Entry.mk none none (some ("i.jpg")) (some OrientPref.auto) none none none none)
    ("i.jpg") (Img.mk 26 10)).2.2.2.1 (Or.inr rfl) rfl rfl

/-- When the source decodes, drawRotated returns exactly the record built from
the chosen rotation: buffer dimensions swapped on 90/270, ratio `outW/outH`,
format from the source prefix. -/
theorem drawRotated_ok (dec : Decoder) (src : String) (userRot : ℕ) (ori : Orientation)
    (img : Img) (hdec : dec src = some img) :
    drawRotated dec src userRot ori JPEG_QUALITY = Except.ok
      (RotOut.mk
        (if jsStartsWith src ("data:image/png") then OutFormat.png
         else OutFormat.jpeg JPEG_QUALITY)
        (if swapDims (chooseRot userRot ori (img.naturalWidth / img.naturalHeight))
         then img.naturalHeight else img.naturalWidth)
        (if swapDims (chooseRot userRot ori (img.naturalWidth / img.naturalHeight))
         then img.naturalWidth else img.naturalHeight)
        ((if swapDims (chooseRot userRot ori (img.naturalWidth / img.naturalHeight))
          then img.naturalHeight else img.naturalWidth) /
         (if swapDims (chooseRot userRot ori (img.naturalWidth / img.naturalHeight))
          then img.naturalWidth else img.naturalHeight))) := by
  simp [drawRotated, hdec]

/-- The rotation chosen by drawRotated puts the output ratio on the side of 1
matching the page orientation. -/
theorem chooseRot_ratio (W H : ℚ) (hW : 0 < W) (hH : 0 < H) (userRot : ℕ)
    (hrot : userRot = 0 ∨ userRot = 90 ∨ userRot = 180 ∨ userRot = 270) (ori : Orientation) :
    (ori = Orientation.landscape →
      1 ≤ (if swapDims (chooseRot userRot ori (W / H)) then H else W) /
          (if swapDims (chooseRot userRot ori (W / H)) then W else H)) ∧
    (ori = Orientation.portrait →
      (if swapDims (chooseRot userRot ori (W / H)) then H else W) /
          (if swapDims (chooseRot userRot ori (W / H)) then W else H) ≤ 1) := by
  rcases hrot with rfl | rfl | rfl | rfl <;> cases ori <;> refine ⟨?_, ?_⟩ <;> intro hori <;>
    try exact Orientation.noConfusion hori
  · -- userRot 0, portrait page: rotate when the ratio exceeds 1
    by_cases hc : (1:ℚ) < W / H
    · have hcr : chooseRot 0 Orientation.portrait (W / H) = 90 := by
        simp [chooseRot, swapDims, normDeg, hc]
      rw [hcr]
      norm_num [swapDims]
      rw [div_le_one hW]
      rw [one_lt_div hH] at hc
      linarith
    · have hcr : chooseRot 0 Orientation.portrait (W / H) = 0 := by
        simp [chooseRot, swapDims, normDeg, hc]
      rw [hcr]
      norm_num [swapDims]
      exact le_of_not_lt hc
  · -- userRot 0, landscape page: rotate when the ratio is below 1
    by_cases hc : W / H < 1
    · have hcr : chooseRot 0 Orientation.landscape (W / H) = 90 := by
        simp [chooseRot, swapDims, normDeg, hc]
      rw [hcr]
      norm_num [swapDims]
      rw [one_le_div hW]
      rw [div_lt_one hH] at hc
      linarith
    · have hcr : chooseRot 0 Orientation.landscape (W / H) = 0 := by
        simp [chooseRot, swapDims, normDeg, hc]
      rw [hcr]
      norm_num [swapDims]
      exact le_of_not_lt hc
  · -- userRot 90, portrait page: effective ratio is the inverse H/W
    by_cases hc : (1:ℚ) < H / W
    · have hcr : chooseRot 90 Orientation.portrait (W / H) = 180 := by
        simp [chooseRot, swapDims, normDeg, hc]
      rw [hcr]
      norm_num [swapDims]
      rw [div_le_one hH]
      rw [one_lt_div hW] at hc
      linarith
    · have hcr : chooseRot 90 Orientation.portrait (W / H) = 90 := by
        simp [chooseRot, swapDims, normDeg, hc]
      rw [hcr]
      norm_num [swapDims]
      exact le_of_not_lt hc
  · -- userRot 90, landscape page
    by_cases hc : H / W < 1
    · have hcr : chooseRot 90 Orientation.landscape (W / H) = 180 := by
        simp [chooseRot, swapDims, normDeg, hc]
      rw [hcr]
      norm_num [swapDims]
      rw [one_le_div hH]
      rw [div_lt_one hW] at hc
      linarith
    · have hcr : chooseRot 90 Orientation.landscape (W / H) = 90 := by
        simp [chooseRot, swapDims, normDeg, hc]
      rw [hcr]
      norm_num [swapDims]
      exact le_of_not_lt hc
  · -- userRot 180, portrait page
    by_cases hc : (1:ℚ) < W / H
    · have hcr : chooseRot 180 Orientation.portrait (W / H) = 270 := by
        simp [chooseRot, swapDims, normDeg, hc]
      rw [hcr]
      norm_num [swapDims]
      rw [div_le_one hW]
      rw [one_lt_div hH] at hc
      linarith
    · have hcr : chooseRot 180 Orientation.portrait (W / H) = 180 := by
        simp [chooseRot, swapDims, normDeg, hc]
      rw [hcr]
      norm_num [swapDims]
      exact le_of_not_lt hc
  · -- userRot 180, landscape page
    by_cases hc : W / H < 1
    · have hcr : chooseRot 180 Orientation.landscape (W / H) = 270 := by
        simp [chooseRot, swapDims, normDeg, hc]
      rw [hcr]
      norm_num [swapDims]
      rw [one_le_div hW]
      rw [div_lt_one hH] at hc
      linarith
    · have hcr : chooseRot 180 Orientation.landscape (W / H) = 180 := by
        simp [chooseRot, swapDims, normDeg, hc]
      rw [hcr]
      norm_num [swapDims]
      exact le_of_not_lt hc
  · -- userRot 270, portrait page: effective ratio is the inverse H/W
    by_cases hc : (1:ℚ) < H / W
    · have hcr : chooseRot 270 Orientation.portrait (W / H) = 0 := by
        simp [chooseRot, swapDims, normDeg, hc]
      rw [hcr]
      norm_num [swapDims]
      rw [div_le_one hH]
      rw [one_lt_div hW] at hc
      linarith
    · have hcr : chooseRot 270 Orientation.portrait (W / H) = 270 := by
        simp [chooseRot, swapDims, normDeg, hc]
      rw [hcr]
      norm_num [swapDims]
      exact le_of_not_lt hc
  · -- userRot 270, landscape page
    by_cases hc : H / W < 1
    · have hcr : chooseRot 270 Orientation.landscape (W / H) = 0 := by
        simp [chooseRot, swapDims, normDeg, hc]
      rw [hcr]
      norm_num [swapDims]
      rw [one_le_div hH]
      rw [div_lt_one hW] at hc
      linarith
    · have hcr : chooseRot 270 Orientation.landscape (W / H) = 270 := by
        simp [chooseRot, swapDims, normDeg, hc]
      rw [hcr]
      norm_num [swapDims]
      exact le_of_not_lt hc

/-- C4: for every decodable source raster with positive dimensions, every
user rotation in {0,90,180,270} and both page orientations, drawRotated's
output ratio `outW/outH` is at least 1 on a landscape page and at most 1 on a
portrait page (a square satisfies both), and the output buffer dimensions are
swapped from the source exactly when the chosen normalized rotation is 90 or
270. -/
theorem C4_rotator (dec : Decoder) (src : String) (userRot : ℕ) (ori : Orientation)
    (img : Img) (r : RotOut)
    (hdec : dec src = some img)
    (hW : 0 < img.naturalWidth) (hH : 0 < img.naturalHeight)
    (hrot : userRot = 0 ∨ userRot = 90 ∨ userRot = 180 ∨ userRot = 270)
    (h : drawRotated dec src userRot ori JPEG_QUALITY = Except.ok r) :
    (ori = Orientation.landscape → 1 ≤ r.ar) ∧
    (ori = Orientation.portrait → r.ar ≤ 1) ∧
    (swapDims (chooseRot userRot ori (img.naturalWidth / img.naturalHeight)) = true →
      r.w = img.naturalHeight ∧ r.h = img.naturalWidth) ∧
    (swapDims (chooseRot userRot ori (img.naturalWidth / img.naturalHeight)) = false →
      r.w = img.naturalWidth ∧ r.h = img.naturalHeight) := by
  rw [drawRotated_ok dec src userRot ori img hdec] at h
  injection h with hr
  obtain ⟨hl, hp⟩ := chooseRot_ratio img.naturalWidth img.naturalHeight hW hH userRot hrot ori
  refine ⟨?_, ?_, ?_, ?_⟩
  · intro ho
    rw [← hr]
    exact hl ho
  · intro ho
    rw [← hr]
    exact hp ho
  · intro hs
    rw [← hr]
    simp [hs]
  · intro hs
    rw [← hr]
    simp [hs]

/-- Witness for C4: a 3x4 source, user rotation 90, landscape page. -/
theorem C4_witness :
    (Orientation.landscape = Orientation.landscape →
      1 ≤ (RotOut.mk (OutFormat.jpeg JPEG_QUALITY) 4 3 (4/3)).ar) ∧
    (Orientation.landscape = Orientation.portrait →
      (RotOut.mk (OutFormat.jpeg JPEG_QUALITY) 4 3 (4/3)).ar ≤ 1) ∧
    (swapDims (chooseRot 90 Orientation.landscape
        ((Img.mk (3:ℚ) 4).naturalWidth / (Img.mk (3:ℚ) 4).naturalHeight)) = true →
      (RotOut.mk (OutFormat.jpeg JPEG_QUALITY) 4 3 (4/3)).w = (Img.mk (3:ℚ) 4).naturalHeight ∧
      (RotOut.mk (OutFormat.jpeg JPEG_QUALITY) 4 3 (4/3)).h = (Img.mk (3:ℚ) 4).naturalWidth) ∧
    (swapDims (chooseRot 90 Orientation.landscape
        ((Img.mk (3:ℚ) 4).naturalWidth / (Img.mk (3:ℚ) 4).naturalHeight)) = false →
      (RotOut.mk (OutFormat.jpeg JPEG_QUALITY) 4 3 (4/3)).w = (Img.mk (3:ℚ) 4).naturalWidth ∧
      (RotOut.mk (OutFormat.jpeg JPEG_QUALITY) 4 3 (4/3)).h = (Img.mk (3:ℚ) 4).naturalHeight) := by
  have hpng : jsStartsWith ("y.jpg") ("data:image/png") = false := by decide
  have hno := eq_false (by decide : ¬ Orientation.landscape = Orientation.portrait)
  have h : drawRotated (fun _ => some (Img.mk (3:ℚ) 4)) ("y.jpg") 90 Orientation.landscape
      JPEG_QUALITY = Except.ok (RotOut.mk (OutFormat.jpeg JPEG_QUALITY) 4 3 (4/3)) := by
    norm_num [drawRotated, chooseRot, swapDims, normDeg, hpng, hno]
  exact C4_rotator (fun _ => some (Img.mk (3:ℚ) 4)) ("y.jpg") 90 Orientation.landscape
    (Img.mk 3 4) (RotOut.mk (OutFormat.jpeg JPEG_QUALITY) 4 3 (4/3)) rfl
    (by norm_num) (by norm_num) (Or.inr (Or.inl rfl)) h

/-- The inset fraction is strictly positive and at most 1/10. -/
theorem insetFor_bounds (a : ℚ) : 0 < insetFor a ∧ insetFor a ≤ 1/10 := by
  unfold insetFor PANORAMA_INSET NORMAL_INSET
  split <;> norm_num

/-- Contain-fit: the fitted rectangle is positive, fits inside the box, and
its width equals its height times the aspect ratio. -/
theorem containFit_spec (boxW boxH imgAR : ℚ) (hW : 0 < boxW) (hH : 0 < boxH)
    (hAR : 0 < imgAR) :
    0 < (containFit boxW boxH imgAR).1 ∧ (containFit boxW boxH imgAR).1 ≤ boxW ∧
    0 < (containFit boxW boxH imgAR).2 ∧ (containFit boxW boxH imgAR).2 ≤ boxH ∧
    (containFit boxW boxH imgAR).1 = (containFit boxW boxH imgAR).2 * imgAR := by
  simp only [containFit]
  split_ifs with hc
  · refine ⟨mul_pos hH hAR, ?_, hH, le_rfl, rfl⟩
    rw [gt_iff_lt, lt_div_iff₀ hAR] at hc
    exact le_of_lt hc
  · refine ⟨hW, le_rfl, div_pos hW hAR, le_of_not_lt hc, ?_⟩
    rw [div_mul_cancel₀ _ (ne_of_gt hAR)]

/-- Centering plus a bounded offset keeps a placed interval inside its box. -/
theorem place_interval (bx bw dw off : ℚ) (_hdw : 0 ≤ dw) (hslack : 0 ≤ bw - dw)
    (ho1 : -100 ≤ off) (ho2 : off ≤ 100) :
    bx ≤ bx + (bw - dw) / 2 + off / 100 * ((bw - dw) / 2) ∧
    bx + (bw - dw) / 2 + off / 100 * ((bw - dw) / 2) + dw ≤ bx + bw := by
  constructor
  · nlinarith [mul_nonneg (by linarith : (0:ℚ) ≤ (bw - dw) / 2)
      (by linarith : (0:ℚ) ≤ 1 + off / 100)]
  · nlinarith [mul_nonneg (by linarith : (0:ℚ) ≤ (bw - dw) / 2)
      (by linarith : (0:ℚ) ≤ 1 - off / 100)]

set_option maxHeartbeats 1600000 in
/-- C3: for every positive content rectangle, positive image aspect ratio,
scale in [50,100] and offsets in [-100,100], the placed rectangle lies inside
the content rectangle and its width/height ratio equals the aspect ratio
exactly. -/
theorem C3_layout (left top rawW rawH imgAR s ox oy : ℚ)
    (hW : 0 < rawW) (hH : 0 < rawH) (hAR : 0 < imgAR)
    (hs1 : 50 ≤ s) (hs2 : s ≤ 100)
    (hox1 : -100 ≤ ox) (hox2 : ox ≤ 100) (hoy1 : -100 ≤ oy) (hoy2 : oy ≤ 100) :
    left ≤ (layoutRect left top rawW rawH imgAR s ox oy).x ∧
    (layoutRect left top rawW rawH imgAR s ox oy).x +
      (layoutRect left top rawW rawH imgAR s ox oy).w ≤ left + rawW ∧
    top ≤ (layoutRect left top rawW rawH imgAR s ox oy).y ∧
    (layoutRect left top rawW rawH imgAR s ox oy).y +
      (layoutRect left top rawW rawH imgAR s ox oy).h ≤ top + rawH ∧
    (layoutRect left top rawW rawH imgAR s ox oy).w /
      (layoutRect left top rawW rawH imgAR s ox oy).h = imgAR := by
  obtain ⟨hi1, hi2⟩ := insetFor_bounds imgAR
  have hcs : clampScale s = s := by
    unfold clampScale
    rw [max_eq_right hs1, min_eq_right hs2]
  simp only [layoutRect, usableBox, hcs]
  set i := insetFor imgAR with hidef
  have hbw : 0 < rawW * (1 - i * 2) := by nlinarith
  have hbh : 0 < rawH * (1 - i * 2) := by nlinarith
  obtain ⟨hf1, hf2, hf3, hf4, hf5⟩ :=
    containFit_spec (rawW * (1 - i * 2)) (rawH * (1 - i * 2)) imgAR hbw hbh hAR
  set fw := (containFit (rawW * (1 - i * 2)) (rawH * (1 - i * 2)) imgAR).1 with hfwdef
  set fh := (containFit (rawW * (1 - i * 2)) (rawH * (1 - i * 2)) imgAR).2 with hfhdef
  have hsc0 : 0 < s / 100 := by linarith
  have hsc2 : s / 100 ≤ 1 := by linarith
  have hsx : 0 ≤ rawW * (1 - i * 2) - fw * (s / 100) := by
    nlinarith [mul_nonneg hf1.le (by linarith : (0:ℚ) ≤ 1 - s / 100)]
  have hsy : 0 ≤ rawH * (1 - i * 2) - fh * (s / 100) := by
    nlinarith [mul_nonneg hf3.le (by linarith : (0:ℚ) ≤ 1 - s / 100)]
  have hpx := place_interval (left + rawW * i) (rawW * (1 - i * 2)) (fw * (s / 100)) ox
    (mul_nonneg hf1.le hsc0.le) hsx hox1 hox2
  have hpy := place_interval (top + rawH * i) (rawH * (1 - i * 2)) (fh * (s / 100)) oy
    (mul_nonneg hf3.le hsc0.le) hsy hoy1 hoy2
  have hWi : 0 ≤ rawW * i := mul_nonneg hW.le hi1.le
  have hHi : 0 ≤ rawH * i := mul_nonneg hH.le hi1.le
  have hupx : left + rawW * i + rawW * (1 - i * 2) ≤ left + rawW := by nlinarith
  have hupy : top + rawH * i + rawH * (1 - i * 2) ≤ top + rawH := by nlinarith
  refine ⟨?_, ?_, ?_, ?_, ?_⟩
  · linarith [hpx.1]
  · linarith [hpx.2, hupx]
  · linarith [hpy.1]
  · linarith [hpy.2, hupy]
  · rw [hf5]
    rw [div_eq_iff (ne_of_gt (mul_pos hf3 hsc0))]
    ring

/-- Witness for C3 at a portrait A4 content box with a square image, scale 50
and full right offset. -/
theorem C3_witness :
    8 ≤ (layoutRect 8 44 194 235 1 50 100 0).x ∧
    (layoutRect 8 44 194 235 1 50 100 0).x +
      (layoutRect 8 44 194 235 1 50 100 0).w ≤ 8 + 194 ∧
    44 ≤ (layoutRect 8 44 194 235 1 50 100 0).y ∧
    (layoutRect 8 44 194 235 1 50 100 0).y +
      (layoutRect 8 44 194 235 1 50 100 0).h ≤ 44 + 235 ∧
    (layoutRect 8 44 194 235 1 50 100 0).w /
      (layoutRect 8 44 194 235 1 50 100 0).h = 1 :=
  C3_layout 8 44 194 235 1 50 100 0 (by norm_num) (by norm_num) (by norm_num)
    (by norm_num) (by norm_num) (by norm_num) (by norm_num) (by norm_num) (by norm_num)

/-- processEntry fails (with a decode error) whenever the image reference
cannot be decoded. -/
theorem processEntry_error (dec : Decoder) (j : String) (e : Entry) (ori : Orientation)
    (src : String) (hdec : dec src = none) :
    processEntry dec j e ori src = Except.error PdfError.decode := by
  simp [processEntry, drawRotated, hdec]

/-- The page loop propagates a decode failure of any kept entry. -/
theorem buildPages_error (dec : Decoder) (j : String) (e : Entry) (o : Orientation)
    (src : String) (himg : e.image = some src) (hdec : dec src = none) :
    ∀ (l : List (Entry × Orientation)) (i : ℕ) (pages : List Page),
      (e, o) ∈ l → ∃ er, buildPages dec j l i pages = Except.error er := by
  intro l
  induction l with
  | nil =>
    intro i pages h
    exact absurd h (List.not_mem_nil _)
  | cons hd tl ih =>
    intro i pages hmem
    rcases List.mem_cons.mp hmem with heq | htl
    · rw [← heq]
      refine ⟨PdfError.decode, ?_⟩
      simp [buildPages, himg, processEntry_error dec j e o src hdec]
    · obtain ⟨e2, o2⟩ := hd
      cases himg2 : e2.image with
      | none =>
        simp only [buildPages, himg2]
        exact ih (i + 1) pages htl
      | some src2 =>
        cases hpe : processEntry dec j e2 o2 src2 with
        | error er =>
          exact ⟨er, by simp [buildPages, himg2, hpe]⟩
        | ok placed =>
          simp only [buildPages, himg2, hpe]
          exact ih (i + 1) _ htl

/-- The orientation pre-pass returns one orientation per entry. -/
theorem pickOrientations_length (dec : Decoder) :
    ∀ (l : List Entry) (os : List Orientation),
      pickOrientations dec l = Except.ok os → os.length = l.length := by
  intro l
  induction l with
  | nil =>
    intro os h
    simp only [pickOrientations, Except.ok.injEq] at h
    rw [← h]
    rfl
  | cons e tl ih =>
    intro os h
    cases hpo : pickOrientation dec e with
    | error er =>
      simp [pickOrientations, hpo] at h
    | ok o =>
      cases hrest : pickOrientations dec tl with
      | error er =>
        simp [pickOrientations, hpo, hrest] at h
      | ok os2 =>
        simp only [pickOrientations, hpo, hrest, Except.ok.injEq] at h
        rw [← h]
        simp [ih os2 hrest]

/-- An element of the first list appears in the zip when the second list is
long enough. -/
theorem mem_zip_left {α β : Type} (a : α) :
    ∀ (l₁ : List α) (l₂ : List β), a ∈ l₁ → l₁.length ≤ l₂.length →
      ∃ b, (a, b) ∈ l₁.zip l₂ := by
  intro l₁
  induction l₁ with
  | nil =>
    intro l₂ h
    exact absurd h (List.not_mem_nil a)
  | cons x xs ih =>
    intro l₂ hmem hlen
    cases l₂ with
    | nil => simp at hlen
    | cons y ys =>
      rcases List.mem_cons.mp hmem with rfl | hxs
      · exact ⟨y, by rw [List.zip_cons_cons]; exact List.mem_cons_self _ _⟩
      · have hlen2 : xs.length ≤ ys.length := by simpa using hlen
        obtain ⟨b, hb⟩ := ih ys hxs hlen2
        exact ⟨b, by rw [List.zip_cons_cons]; exact List.mem_cons_of_mem _ hb⟩

/-- C7: if any kept entry's image reference fails to decode, the export saves
no document and reports the error, and the in-progress flag is cleared on
every path, success or failure. -/
theorem C7_abort (dec : Decoder) (jobNumber : String) (entries : List Entry)
    (e : Entry) (src : String)
    (hmem : e ∈ entries) (himg : e.image = some src) (hdec : dec src = none) :
    (downloadPDF dec jobNumber entries).saved = none ∧
    (downloadPDF dec jobNumber entries).alerted = true ∧
    ∀ (dec2 : Decoder) (j2 : String) (entries2 : List Entry),
      (downloadPDF dec2 j2 entries2).isGenerating = false := by
  have hfail : ∃ er, exportRun dec jobNumber entries = Except.error er := by
    cases hpo : pickOrientations dec entries with
    | error er => exact ⟨er, by simp [exportRun, hpo]⟩
    | ok oris =>
      have hlen := pickOrientations_length dec entries oris hpo
      obtain ⟨o, hzip⟩ := mem_zip_left e entries oris hmem (le_of_eq hlen.symm)
      obtain ⟨er, hb⟩ := buildPages_error dec jobNumber e o src himg hdec
        (entries.zip oris) 0 [Page.mk (oris.headD Orientation.portrait) none] hzip
      refine ⟨er, ?_⟩
      simp only [exportRun, hpo]
      rw [hb]
  obtain ⟨er, hrun⟩ := hfail
  refine ⟨?_, ?_, ?_⟩
  · simp [downloadPDF, hrun]
  · simp [downloadPDF, hrun]
  · intro dec2 j2 entries2
    cases hrun2 : exportRun dec2 j2 entries2 with
    | error er2 => simp [downloadPDF, hrun2]
    | ok d => simp [downloadPDF, hrun2]

/-- Witness for C7: a one-entry list whose image never decodes. -/
theorem C7_witness :
    (downloadPDF (fun _ => none) ""
      [Entry.mk none none (some ("bad.jpg")) (some OrientPref.portrait) none none none
        none]).saved = none ∧
    (downloadPDF (fun _ => none) ""
      [Entry.mk none none (some ("bad.jpg")) (some OrientPref.portrait) none none none
        none]).alerted = true ∧
    ∀ (dec2 : Decoder) (j2 : String) (entries2 : List Entry),
      (downloadPDF dec2 j2 entries2).isGenerating = false :=
  C7_abort (fun _ => none) ""
    [Entry.mk none none (some ("bad.jpg")) (some OrientPref.portrait) none none none none]
    (Entry.mk none none (some ("bad.jpg")) (some OrientPref.portrait) none none none none)
    ("bad.jpg") (List.mem_singleton.mpr rfl) rfl rfl

/-- C1 fails on the code: jsPDF's constructor already creates page 1 before
the loop runs, so with a skipped (imageless) first entry followed by a kept
entry the saved document has two pages — a leading blank one — although only
one entry is kept. -/
theorem C1_code_bug :
    (([entryBlank, entryPhoto].filter (fun e => e.image.isSome)).length = 1) ∧
    (downloadPDF decStub "" [entryBlank, entryPhoto]).saved.map
      (fun d => d.pages.length) = some 2 ∧
    (downloadPDF decStub "" [entryBlank, entryPhoto]).saved.map
      (fun d => d.pages.map (fun p => p.placed.isSome)) = some [false, true] := by
  refine ⟨by decide, by decide, by decide⟩

/-- A failed prefix check against a long-enough list cannot be rescued by
appending more elements. -/
theorem isPrefixOf_append_false {α : Type} [BEq α] :
    ∀ (l₁ l₂ t : List α), l₁.length ≤ l₂.length → l₁.isPrefixOf l₂ = false →
      l₁.isPrefixOf (l₂ ++ t) = false := by
  intro l₁
  induction l₁ with
  | nil =>
    intro l₂ t hlen hpre
    simp [List.isPrefixOf] at hpre
  | cons a as ih =>
    intro l₂ t hlen hpre
    cases l₂ with
    | nil => simp at hlen
    | cons b bs =>
      rw [List.cons_append]
      rw [List.isPrefixOf_cons₂] at hpre ⊢
      cases hab : a == b with
      | false => simp [hab]
      | true =>
        rw [hab] at hpre
        simp only [Bool.true_and] at hpre ⊢
        exact ih bs t (by simpa using hlen) hpre

/-- The JPEG data URLs produced by applyCrop never carry the PNG prefix. -/
theorem cropDataUrl_not_png (p : String) :
    jsStartsWith (cropDataUrl p) ("data:image/png") = false := by
  unfold jsStartsWith cropDataUrl
  rw [String.data_append]
  exact isPrefixOf_append_false _ _ _ (by decide) (by decide)

/-- drawRotated re-encodes every crop-produced source as JPEG at quality 0.9. -/
theorem drawRotated_crop_format (dec : Decoder) (p : String) (userRot : ℕ)
    (ori : Orientation) (r : RotOut)
    (h : drawRotated dec (cropDataUrl p) userRot ori JPEG_QUALITY = Except.ok r) :
    r.format = OutFormat.jpeg JPEG_QUALITY := by
  cases hdec : dec (cropDataUrl p) with
  | none => simp [drawRotated, hdec] at h
  | some img =>
    rw [drawRotated_ok dec (cropDataUrl p) userRot ori img hdec] at h
    injection h with hr
    rw [← hr]
    simp [cropDataUrl_not_png]

/-- The placed image built from a crop-produced source is JPEG-encoded. -/
theorem processEntry_crop_jpeg (dec : Decoder) (j : String) (e : Entry) (ori : Orientation)
    (p : String) (pl : PlacedImage)
    (h : processEntry dec j e ori (cropDataUrl p) = Except.ok pl) :
    pl.format = OutFormat.jpeg JPEG_QUALITY := by
  simp only [processEntry] at h
  cases hdr : drawRotated dec (cropDataUrl p) (e.rotation.getD 0) ori JPEG_QUALITY with
  | error er => rw [hdr] at h; exact Except.noConfusion h
  | ok rot =>
    rw [hdr] at h
    injection h with hpl
    rw [← hpl]
    exact drawRotated_crop_format dec p (e.rotation.getD 0) ori rot hdr

/-- Drawing a JPEG-encoded raster on the last page preserves the all-JPEG
invariant of the document. -/
theorem setLastPlaced_jpeg (pl : PlacedImage)
    (hpl : pl.format = OutFormat.jpeg JPEG_QUALITY) :
    ∀ pages : List Page,
      (∀ pg ∈ pages, ∀ q, pg.placed = some q → q.format = OutFormat.jpeg JPEG_QUALITY) →
      ∀ pg ∈ setLastPlaced pages pl, ∀ q, pg.placed = some q →
        q.format = OutFormat.jpeg JPEG_QUALITY := by
  intro pages
  induction pages with
  | nil =>
    intro hinv pg hmem
    simp [setLastPlaced] at hmem
  | cons hd tl ih =>
    intro hinv pg hmem
    cases tl with
    | nil =>
      simp only [setLastPlaced, List.mem_singleton] at hmem
      rw [hmem]
      intro q hq
      simp only [Option.some.injEq] at hq
      rw [← hq]
      exact hpl
    | cons hd2 tl2 =>
      rw [show setLastPlaced (hd :: hd2 :: tl2) pl = hd :: setLastPlaced (hd2 :: tl2) pl
        from rfl] at hmem
      rcases List.mem_cons.mp hmem with rfl | htl
      · exact hinv pg (List.mem_cons_self _ _)
      · exact ih (fun pg2 h2 => hinv pg2 (List.mem_cons_of_mem _ h2)) pg htl

/-- The page loop preserves the all-JPEG invariant when every kept entry's
image is a crop-produced data URL. -/
theorem buildPages_jpeg (dec : Decoder) (j : String) :
    ∀ (l : List (Entry × Orientation)) (i : ℕ) (pages out : List Page),
      (∀ pr ∈ l, ∀ s, (pr : Entry × Orientation).1.image = some s →
        ∃ p, s = cropDataUrl p) →
      (∀ pg ∈ pages, ∀ q, pg.placed = some q → q.format = OutFormat.jpeg JPEG_QUALITY) →
      buildPages dec j l i pages = Except.ok out →
      ∀ pg ∈ out, ∀ q, pg.placed = some q → q.format = OutFormat.jpeg JPEG_QUALITY := by
  intro l
  induction l with
  | nil =>
    intro i pages out hcrop hinv hb
    simp only [buildPages, Except.ok.injEq] at hb
    rw [← hb]
    exact hinv
  | cons hd tl ih =>
    intro i pages out hcrop hinv hb
    obtain ⟨e, o⟩ := hd
    cases himg : e.image with
    | none =>
      simp only [buildPages, himg] at hb
      exact ih (i + 1) pages out (fun pr hpr => hcrop pr (List.mem_cons_of_mem _ hpr)) hinv hb
    | some src =>
      obtain ⟨p, rfl⟩ := hcrop (e, o) (List.mem_cons_self _ _) src himg
      simp only [buildPages, himg] at hb
      cases hpe : processEntry dec j e o (cropDataUrl p) with
      | error er =>
        rw [hpe] at hb
        exact Except.noConfusion hb
      | ok pl =>
        rw [hpe] at hb
        have hplf := processEntry_crop_jpeg dec j e o p pl hpe
        have hinv1 : ∀ pg ∈ (if i > 0 then pages ++ [Page.mk o none] else pages), ∀ q,
            pg.placed = some q → q.format = OutFormat.jpeg JPEG_QUALITY := by
          split
          · intro pg hpg q hq
            rcases List.mem_append.mp hpg with h1 | h1
            · exact hinv pg h1 q hq
            · rw [List.mem_singleton] at h1
              rw [h1] at hq
              exact Option.noConfusion hq
          · exact hinv
        exact ih (i + 1) _ out (fun pr hpr => hcrop pr (List.mem_cons_of_mem _ hpr))
          (setLastPlaced_jpeg pl hplf _ hinv1) hb

/-- C10: applyCrop finalizes every entry image as a JPEG data URL, which never
begins with the PNG data-URL prefix; hence drawRotated's PNG-preserving branch
is unreachable from the export path, and every raster placed in the produced
document is JPEG-encoded at quality 0.9 — transparency is never carried into
the document. -/
theorem C10_crop_jpeg (dec0 : Decoder) :
    (∀ p, jsStartsWith (cropDataUrl p) ("data:image/png") = false) ∧
    (∀ p userRot ori r,
      drawRotated dec0 (cropDataUrl p) userRot ori JPEG_QUALITY = Except.ok r →
      r.format = OutFormat.jpeg JPEG_QUALITY) ∧
    (∀ jobNumber entries doc,
      (∀ e ∈ entries, ∀ s, (e : Entry).image = some s → ∃ p, s = cropDataUrl p) →
      (downloadPDF dec0 jobNumber entries).saved = some doc →
      ∀ pg ∈ doc.pages, ∀ q, (pg : Page).placed = some q →
        q.format = OutFormat.jpeg JPEG_QUALITY) := by
  refine ⟨cropDataUrl_not_png,
    fun p userRot ori r h => drawRotated_crop_format dec0 p userRot ori r h, ?_⟩
  intro jobNumber entries doc hcrop hsaved
  cases hrun : exportRun dec0 jobNumber entries with
  | error er => simp [downloadPDF, hrun] at hsaved
  | ok d =>
    simp only [downloadPDF, hrun, Option.some.injEq] at hsaved
    cases hpo : pickOrientations dec0 entries with
    | error er => simp [exportRun, hpo] at hrun
    | ok oris =>
      cases hbp : buildPages dec0 jobNumber (entries.zip oris) 0
          [Page.mk (oris.headD Orientation.portrait) none] with
      | error er =>
        simp only [exportRun, hpo] at hrun
        rw [hbp] at hrun
        exact Except.noConfusion hrun
      | ok pages =>
        have hd : d.pages = pages := by
          simp only [exportRun, hpo] at hrun
          rw [hbp] at hrun
          injection hrun with h2
          rw [← h2]
        rw [← hsaved, hd]
        refine buildPages_jpeg dec0 jobNumber (entries.zip oris) 0
          [Page.mk (oris.headD Orientation.portrait) none] pages ?_ ?_ hbp
        · intro pr hpr s hs
          exact hcrop pr.1 (List.of_mem_zip hpr).1 s hs
        · intro pg hpg q hq
          rw [List.mem_singleton] at hpg
          rw [hpg] at hq
          exact Option.noConfusion hq

/-- Witness for C10: a crop-produced source through drawRotated comes out
JPEG at quality 0.9. -/
theorem C10_witness :
    drawRotated (fun _ => some (Img.mk 4 3)) (cropDataUrl ("AAA")) 0 Orientation.landscape
      JPEG_QUALITY = Except.ok (RotOut.mk (OutFormat.jpeg JPEG_QUALITY) 4 3 (4/3)) ∧
    (RotOut.mk (OutFormat.jpeg JPEG_QUALITY) 4 3 (4/3)).format =
      OutFormat.jpeg JPEG_QUALITY := by
  have hno := eq_false (by decide : ¬ Orientation.landscape = Orientation.portrait)
  have h : drawRotated (fun _ => some (Img.mk 4 3)) (cropDataUrl ("AAA")) 0
      Orientation.landscape JPEG_QUALITY =
      Except.ok (RotOut.mk (OutFormat.jpeg JPEG_QUALITY) 4 3 (4/3)) := by
    norm_num [drawRotated, chooseRot, swapDims, normDeg, cropDataUrl_not_png, hno]
  exact ⟨h, (C10_crop_jpeg (fun _ => some (Img.mk 4 3))).2.1 ("AAA") 0
    Orientation.landscape (RotOut.mk (OutFormat.jpeg JPEG_QUALITY) 4 3 (4/3)) h⟩

end ImageOverlay
